import Mathlib

/-!
Verification development for the when3meet scheduling core:
the slot-lattice generators, the availability status state machine,
the heatmap projector and the multi-criteria suggestion ranker
(`src/components/AvailabilityGrid.tsx`, `src/components/HeatmapGrid.tsx`,
`src/components/SuggestedTimes.tsx`).

Modelling conventions (shallow embedding):
* a time of day is the number of minutes since midnight (`Nat`);
  the source walks a JS `Date` in 30-minute steps and serialises it as
  `HH:MM:SS`, which is in bijection with the minute count;
* a calendar date is an integer day index (`Int`); the source walks a JS
  `Date` one calendar day at a time and serialises it as `YYYY-MM-DD`;
* the `numeric` utility values are embedded as `ℚ` where the source only
  adds/multiplies/compares the exact values 0, 1, 2, and as `ℝ` where the
  source takes real roots (`Math.pow(_, 1/n)`, `Math.sqrt`);
* the availability rows, participant rows and the suggestion records keep
  the field names of the source.
-/

namespace When3Meet

/-- Availability status of a participant at a slot; the database constrains
the `status` column to exactly these three values. -/
inductive Status where
  | unavailable : Status
  | works : Status
  | preferred : Status
deriving DecidableEq, Repr

/-- Participant row; only the `id` field is read by the ranker. -/
structure Participant where
  id : Nat
deriving DecidableEq, Repr

/-- Availability row: one participant's status at one (date, time) slot. -/
structure Availability where
  participant_id : Nat
  date : Int
  time : Nat
  status : Status
deriving DecidableEq, Repr

/-- Event row: inclusive date range and half-open time-of-day range. -/
structure Event where
  start_date : Int
  end_date : Int
  start_time : Nat
  end_time : Nat
deriving DecidableEq, Repr

/-- Status-cycling state machine of `AvailabilityGrid.cycleStatus`:
`undefined`/`unavailable ↦ works`, `works ↦ preferred`, `preferred ↦ unavailable`. -/
def cycleStatus : Option Status → Status
  | none => .works
  | some .unavailable => .works
  | some .works => .preferred
  | some .preferred => .unavailable

/-- Loop body of `generateTimeSlots`: starting at `cur` minutes, emit a slot
and advance by 30 minutes while strictly before `stop`. -/
def timeSlotsFrom (cur stop : Nat) : List Nat :=
  if cur < stop then cur :: timeSlotsFrom (cur + 30) stop else []
termination_by stop - cur
decreasing_by omega

/-- The `generateTimeSlots` helper (identical in `SuggestedTimes`,
`AvailabilityGrid` and `HeatmapGrid`). -/
def generateTimeSlots (event : Event) : List Nat :=
  timeSlotsFrom event.start_time event.end_time

/-- Loop body of `generateDates`: starting at day `cur`, emit a date and
advance by one day while at most `stop`. -/
def datesFrom (cur stop : Int) : List Int :=
  if cur ≤ stop then cur :: datesFrom (cur + 1) stop else []
termination_by (stop + 1 - cur).toNat
decreasing_by omega

/-- The `generateDates` helper (identical in all three grid components). -/
def generateDates (event : Event) : List Int :=
  datesFrom event.start_date event.end_date

/-- Cardinal utility weights (`UTILITY_WEIGHTS` in `SuggestedTimes`). -/
structure UtilityWeights where
  preferred : ℚ
  works : ℚ
  unavailable : ℚ
deriving DecidableEq, Repr

/-- `UTILITY_WEIGHTS`: preferred ↦ 2.0, works ↦ 1.0, unavailable ↦ 0.0. -/
def UTILITY_WEIGHTS : UtilityWeights :=
  { preferred := 2, works := 1, unavailable := 0 }

/-- Per-slot utility vector (`calculateUtilities`): one utility per
participant, taken from the first availability row matching
(participant, date, time); a missing row counts as unavailable. -/
def calculateUtilities (participants : List Participant)
    (availability : List Availability) (date : Int) (time : Nat) : List ℚ :=
  participants.map fun participant =>
    match availability.find? fun a =>
        a.participant_id == participant.id && a.date == date && a.time == time with
    | none => UTILITY_WEIGHTS.unavailable
    | some a =>
      if a.status = .unavailable then UTILITY_WEIGHTS.unavailable
      else if a.status = .preferred then UTILITY_WEIGHTS.preferred
      else UTILITY_WEIGHTS.works

/-- Sum of the utility vector (`calculateSocialWelfare`). -/
def calculateSocialWelfare (utilities : List ℚ) : ℚ :=
  utilities.foldl (· + ·) 0

/-- Product of the positive utilities (`calculateNashProduct`);
0 when no participant has positive utility. -/
def calculateNashProduct (utilities : List ℚ) : ℚ :=
  let availableUtilities := utilities.filter fun u => 0 < u
  if availableUtilities.isEmpty then 0
  else availableUtilities.foldl (· * ·) 1

/-- Minimum positive utility (`calculateEgalitarian`);
0 when no participant has positive utility. -/
def calculateEgalitarian (utilities : List ℚ) : ℚ :=
  let availableUtilities := utilities.filter fun u => 0 < u
  match availableUtilities with
  | [] => 0
  | u :: rest => rest.foldl min u

/-- Variance-based fairness score (`calculateFairness`):
`1 − stdDev/mean` over the positive utilities, 0 when none are positive. -/
noncomputable def calculateFairness (utilities : List ℚ) : ℝ :=
  let availableUtilities := utilities.filter fun u => 0 < u
  if availableUtilities.isEmpty then 0
  else
    let mean : ℚ := availableUtilities.foldl (· + ·) 0 / availableUtilities.length
    let variance : ℚ :=
      (availableUtilities.map fun u => (u - mean) ^ 2).foldl (· + ·) 0 /
        availableUtilities.length
    let stdDev : ℝ := Real.sqrt (variance : ℝ)
    if 0 < mean then 1 - stdDev / (mean : ℝ) else 0

/-- Loop of `isParetoDominated`: walk both vectors in parallel carrying the
`strictlyBetter` flag; bail out with `false` on the first strictly worse
coordinate. -/
def paretoLoop : List ℚ → List ℚ → Bool → Bool
  | [], _, strictlyBetter => strictlyBetter
  | _ :: _, [], strictlyBetter => strictlyBetter
  | u1 :: t1, u2 :: t2, strictlyBetter =>
    if u1 < u2 then false
    else paretoLoop t1 t2 (strictlyBetter || decide (u2 < u1))

/-- Pareto dominance test (`isParetoDominated utilities1 utilities2` is true
when `utilities1` dominates `utilities2`: nowhere worse, somewhere strictly
better). -/
def isParetoDominated (utilities1 utilities2 : List ℚ) : Bool :=
  paretoLoop utilities1 utilities2 false

/-- Pareto rank (`calculateParetoRank`): the number of candidate utility
vectors the given vector dominates. -/
def calculateParetoRank (utilities : List ℚ)
    (allUtilities : List ((Int × Nat) × List ℚ)) : Nat :=
  (allUtilities.filter fun other => isParetoDominated utilities other.2).length

/-- Ranking weights (`RANKING_WEIGHTS` in `SuggestedTimes`). -/
structure RankingWeights where
  socialWelfare : ℝ
  nashProduct : ℝ
  egalitarian : ℝ
  fairness : ℝ
  paretoRank : ℝ

/-- `RANKING_WEIGHTS`: 0.4 / 0.3 / 0.15 / 0.1 / 0.05. -/
def RANKING_WEIGHTS : RankingWeights :=
  { socialWelfare := 0.4, nashProduct := 0.3, egalitarian := 0.15,
    fairness := 0.1, paretoRank := 0.05 }

/-- A `TimeSlotSuggestion` record as pushed in the second pass of
`calculateSuggestions`; `nashProduct` stores the normalized value. -/
structure Suggestion where
  date : Int
  time : Nat
  availableCount : Nat
  preferredCount : Nat
  worksCount : Nat
  percentage : ℚ
  socialWelfare : ℚ
  utilitarian : ℚ
  egalitarian : ℚ
  nashProduct : ℝ
  paretoRank : Nat
  fairnessScore : ℝ

/-- A suggestion together with its composite score, as produced by the final
`.map` in `calculateSuggestions`. -/
structure ScoredSuggestion extends Suggestion where
  compositeScore : ℝ

/-- First pass of `calculateSuggestions`: the `allUtilities` map, in insertion
order, holding the utility vector of every slot with at least one
positive-utility participant. -/
def firstPass (dates : List Int) (timeSlots : List Nat)
    (participants : List Participant) (availability : List Availability) :
    List ((Int × Nat) × List ℚ) :=
  dates.flatMap fun date =>
    timeSlots.filterMap fun time =>
      let utilities := calculateUtilities participants availability date time
      let availableCount := (utilities.filter fun u => 0 < u).length
      if 0 < availableCount then some ((date, time), utilities) else none

/-- Lookup in the `allUtilities` map (`allUtilities.get(key)` for the key
built from a date and a time). -/
def lookupUtilities (allUtilities : List ((Int × Nat) × List ℚ))
    (date : Int) (time : Nat) : Option (List ℚ) :=
  (allUtilities.find? fun e => e.1.1 == date && e.1.2 == time).map (·.2)

/-- Body of the second pass of `calculateSuggestions`: build the suggestion
record of one slot from its utility vector. -/
noncomputable def buildSuggestion (participants : List Participant)
    (availability : List Availability)
    (allUtilities : List ((Int × Nat) × List ℚ))
    (date : Int) (time : Nat) (utilities : List ℚ) : Suggestion :=
  let slotAvailability := availability.filter fun a =>
    a.date == date && a.time == time
  let preferredCount := (slotAvailability.filter fun a =>
    a.status == Status.preferred).length
  let worksCount := (slotAvailability.filter fun a =>
    a.status == Status.works).length
  let availableCount := preferredCount + worksCount
  let percentage : ℚ := ((availableCount : ℚ) / participants.length) * 100
  let socialWelfare := calculateSocialWelfare utilities
  let nashProduct := calculateNashProduct utilities
  let egalitarian := calculateEgalitarian utilities
  let fairness := calculateFairness utilities
  let paretoRank := calculateParetoRank utilities allUtilities
  let normalizedNash : ℝ :=
    if 0 < availableCount then (nashProduct : ℝ) ^ ((1 : ℝ) / availableCount)
    else 0
  let utilitarian := socialWelfare / participants.length
  { date := date, time := time, availableCount := availableCount,
    preferredCount := preferredCount, worksCount := worksCount,
    percentage := percentage, socialWelfare := socialWelfare,
    utilitarian := utilitarian, egalitarian := egalitarian,
    nashProduct := normalizedNash, paretoRank := paretoRank,
    fairnessScore := fairness }

/-- Second pass of `calculateSuggestions`: one suggestion per slot present in
the `allUtilities` map, in date-major slot order. -/
noncomputable def secondPass (dates : List Int) (timeSlots : List Nat)
    (participants : List Participant) (availability : List Availability)
    (allUtilities : List ((Int × Nat) × List ℚ)) : List Suggestion :=
  dates.flatMap fun date =>
    timeSlots.filterMap fun time =>
      match lookupUtilities allUtilities date time with
      | none => none
      | some utilities =>
        some (buildSuggestion participants availability allUtilities date time
          utilities)

/-- Final `.map` of `calculateSuggestions`: attach the composite score. -/
noncomputable def addCompositeScore (s : Suggestion) : ScoredSuggestion :=
  { toSuggestion := s,
    compositeScore :=
      RANKING_WEIGHTS.socialWelfare * (s.socialWelfare : ℝ) +
      RANKING_WEIGHTS.nashProduct * s.nashProduct * 10 +
      RANKING_WEIGHTS.egalitarian * (s.egalitarian : ℝ) * 5 +
      RANKING_WEIGHTS.fairness * s.fairnessScore * 10 -
      RANKING_WEIGHTS.paretoRank * (s.paretoRank : ℝ) }

/-- Comparator of the final `.sort((a, b) => b.compositeScore - a.compositeScore)`:
a stable sort placing larger composite scores first. -/
noncomputable def suggestionLE (a b : ScoredSuggestion) : Bool :=
  decide (b.compositeScore ≤ a.compositeScore)

/-- The suggestion ranker `calculateSuggestions`: empty participant list short
circuits to `[]`; otherwise score every candidate slot, sort by descending
composite score (stably) and keep the first 5. -/
noncomputable def calculateSuggestions (event : Event)
    (participants : List Participant) (availability : List Availability) :
    List ScoredSuggestion :=
  if participants.length = 0 then []
  else
    let timeSlots := generateTimeSlots event
    let dates := generateDates event
    let allUtilities := firstPass dates timeSlots participants availability
    ((((secondPass dates timeSlots participants availability allUtilities).map
      addCompositeScore).mergeSort suggestionLE).take 5)

/-- Suggestion record the ranker computes for one given slot (the second-pass
body applied to that slot's utility vector and the full candidate map). -/
noncomputable def slotScored (event : Event) (participants : List Participant)
    (availability : List Availability) (date : Int) (time : Nat) :
    ScoredSuggestion :=
  addCompositeScore (buildSuggestion participants availability
    (firstPass (generateDates event) (generateTimeSlots event) participants
      availability)
    date time (calculateUtilities participants availability date time))

/-- Per-slot count of the heatmap (`HeatmapGrid.getSlotAvailability`): number
of availability rows at the slot whose status is works or preferred. -/
def getSlotAvailability (availability : List Availability)
    (date : Int) (time : Nat) : Nat :=
  (availability.filter fun a =>
    a.date == date && a.time == time &&
      (a.status == Status.works || a.status == Status.preferred)).length

/-- Intensity colour of the heatmap (`HeatmapGrid.getHeatmapColor`). -/
def getHeatmapColor (totalParticipants availableCount : Nat) : String :=
  if totalParticipants = 0 ∨ availableCount = 0 then "bg-muted/50"
  else
    let percentage : ℚ := (availableCount : ℚ) / totalParticipants
    if percentage < 0.2 then "bg-green-200"
    else if percentage < 0.4 then "bg-green-300"
    else if percentage < 0.6 then "bg-green-400"
    else if percentage < 0.8 then "bg-green-500"
    else "bg-green-600"

/-- Index (0–5) of a heatmap colour, from palest to darkest. -/
def bandOfColor (color : String) : Nat :=
  if color = "bg-muted/50" then 0
  else if color = "bg-green-200" then 1
  else if color = "bg-green-300" then 2
  else if color = "bg-green-400" then 3
  else if color = "bg-green-500" then 4
  else 5

/-- Heatmap band the spec describes: `score = worksCount*1 + preferredCount*2`,
`ratio = score / (totalParticipants*2)`, bands 0, ≤0.2, ≤0.4, ≤0.6, ≤0.8,
and >0.8.  Stated from the spec's words for comparison with the code. -/
def heatmapBandClaimed (totalParticipants worksCount preferredCount : Nat) :
    Nat :=
  let score : ℚ := worksCount * 1 + preferredCount * 2
  let ratio : ℚ := score / (totalParticipants * 2)
  if ratio = 0 then 0
  else if ratio ≤ 0.2 then 1
  else if ratio ≤ 0.4 then 2
  else if ratio ≤ 0.6 then 3
  else if ratio ≤ 0.8 then 4
  else 5

/-- Heatmap band the code computes: an unweighted count of works-or-preferred
rows over the participant total, with strict `<` thresholds.  Stated
independently of `getHeatmapColor` for the amended refinement theorem. -/
def heatmapBandActual (totalParticipants worksCount preferredCount : Nat) :
    Nat :=
  let ratio : ℚ := ((worksCount : ℚ) + preferredCount) / totalParticipants
  if totalParticipants = 0 ∨ worksCount + preferredCount = 0 then 0
  else if ratio < 0.2 then 1
  else if ratio < 0.4 then 2
  else if ratio < 0.6 then 3
  else if ratio < 0.8 then 4
  else 5

/-- Works-status row count of a slot. -/
def slotWorksCount (availability : List Availability)
    (date : Int) (time : Nat) : Nat :=
  (availability.filter fun a =>
    a.date == date && a.time == time && a.status == Status.works).length

/-- Preferred-status row count of a slot. -/
def slotPreferredCount (availability : List Availability)
    (date : Int) (time : Nat) : Nat :=
  (availability.filter fun a =>
    a.date == date && a.time == time && a.status == Status.preferred).length

/-! ## Concrete inputs used by the scenario claims -/

/-- Event of the concrete spec scenario: one date, 09:00 (minute 540) to
10:00 (minute 600). -/
def ev4 : Event := ⟨0, 0, 540, 600⟩

/-- Two participants of the concrete spec scenario. -/
def ps4 : List Participant := [⟨1⟩, ⟨2⟩]

/-- Availability of the concrete spec scenario: participant 1 preferred and
participant 2 works at the 09:00 slot; no other rows. -/
def av4 : List Availability := [⟨1, 0, 540, .preferred⟩, ⟨2, 0, 540, .works⟩]

/-- Single-slot event (09:00 to 09:30) for the duplicate-row scenario. -/
def ev10 : Event := ⟨0, 0, 540, 570⟩

/-- One participant for the duplicate-row scenario. -/
def ps10 : List Participant := [⟨1⟩]

/-- Duplicate availability rows for one participant at one slot: a works row
first, then a preferred row for the same (participant, date, time) key. -/
def av10 : List Availability := [⟨1, 0, 540, .works⟩, ⟨1, 0, 540, .preferred⟩]

/-- Event for the composite-score monotonicity counterexample: one date,
09:00 (minute 540) to 18:00 (minute 1080), giving 18 half-hour slots. -/
def evC : Event := ⟨0, 0, 540, 1080⟩

/-- Participants of the composite-score counterexample. -/
def psC : List Participant := [⟨1⟩, ⟨2⟩]

/-- Availability of the composite-score counterexample, parametrised by the
status of participant 2 at the 09:00 slot: participant 1 prefers all 18
slots; participant 2 works at the 17 later slots and has status `s` at
09:00.  The two ranker inputs compared differ in exactly that one row. -/
def avC (s : Status) : List Availability :=
  ((List.range 18).map fun i => ⟨1, 0, 540 + 30 * i, .preferred⟩) ++
    ((List.range 17).map fun i => ⟨2, 0, 570 + 30 * i, .works⟩) ++
    [⟨2, 0, 540, s⟩]

/-! ## Support lemmas -/

theorem timeSlotsFrom_eq_range (cur stop : Nat) :
    timeSlotsFrom cur stop =
      (List.range ((stop - cur + 29) / 30)).map fun i => cur + 30 * i := by
  by_cases h : cur < stop
  · rw [timeSlotsFrom, if_pos h, timeSlotsFrom_eq_range (cur + 30) stop]
    have hn : (stop - cur + 29) / 30 = (stop - (cur + 30) + 29) / 30 + 1 := by
      omega
    rw [hn, List.range_succ_eq_map, List.map_cons, List.map_map]
    refine congrArg₂ _ (by omega) (List.map_congr_left fun i _ => ?_)
    simp [Function.comp]
    omega
  · rw [timeSlotsFrom, if_neg h]
    have hn : (stop - cur + 29) / 30 = 0 := by omega
    rw [hn]
    rfl
termination_by stop - cur
decreasing_by omega

theorem timeSlotsFrom_length (cur stop : Nat) :
    (timeSlotsFrom cur stop).length = (stop - cur + 29) / 30 := by
  rw [timeSlotsFrom_eq_range]
  simp

theorem datesFrom_length (cur stop : Int) (h : cur ≤ stop) :
    (datesFrom cur stop).length = (stop - cur).toNat + 1 := by
  rw [datesFrom, if_pos h]
  by_cases h2 : cur + 1 ≤ stop
  · rw [List.length_cons, datesFrom_length (cur + 1) stop h2]
    omega
  · rw [List.length_cons, datesFrom, if_neg h2]
    simp
    omega
termination_by (stop - cur).toNat
decreasing_by omega

theorem paretoLoop_irrefl (v : List ℚ) (sb : Bool) : paretoLoop v v sb = sb := by
  induction v generalizing sb with
  | nil => rfl
  | cons a t ih => simp [paretoLoop, lt_irrefl, ih]

theorem paretoLoop_eq (u1 u2 : List ℚ) (sb : Bool) :
    paretoLoop u1 u2 sb =
      (((u1.zip u2).all fun p => decide (p.2 ≤ p.1)) &&
        (sb || (u1.zip u2).any fun p => decide (p.2 < p.1))) := by
  induction u1 generalizing u2 sb with
  | nil => simp [paretoLoop]
  | cons a t ih =>
    cases u2 with
    | nil => simp [paretoLoop]
    | cons b t2 =>
      by_cases h : a < b
      · simp [paretoLoop, h, not_le.2 h]
      · have hba : b ≤ a := not_lt.1 h
        simp only [paretoLoop, if_neg h, ih, List.zip_cons_cons, List.all_cons,
          List.any_cons, decide_eq_true hba, Bool.true_and]
        cases sb <;> cases (decide (b < a)) <;> simp [Bool.or_assoc]

theorem getSlotAvailability_eq (availability : List Availability)
    (date : Int) (time : Nat) :
    getSlotAvailability availability date time =
      slotWorksCount availability date time +
        slotPreferredCount availability date time := by
  induction availability with
  | nil => rfl
  | cons a t ih =>
    simp only [getSlotAvailability, slotWorksCount, slotPreferredCount,
      List.filter_cons] at *
    by_cases hd : a.date = date <;> by_cases ht : a.time = time <;>
      cases hs : a.status <;>
      simp [hd, ht, hs, ih] <;> omega

theorem bandOfColor_getHeatmapColor (total n : Nat) :
    bandOfColor (getHeatmapColor total n) =
      if total = 0 ∨ n = 0 then 0
      else if (n : ℚ) / total < 0.2 then 1
      else if (n : ℚ) / total < 0.4 then 2
      else if (n : ℚ) / total < 0.6 then 3
      else if (n : ℚ) / total < 0.8 then 4
      else 5 := by
  by_cases h0 : total = 0 ∨ n = 0
  · simp [getHeatmapColor, bandOfColor, h0]
  · by_cases h1 : (n : ℚ) / total < 0.2
    · simp [getHeatmapColor, bandOfColor, h0, h1]
    · by_cases h2 : (n : ℚ) / total < 0.4
      · simp [getHeatmapColor, bandOfColor, h0, h1, h2]
      · by_cases h3 : (n : ℚ) / total < 0.6
        · simp [getHeatmapColor, bandOfColor, h0, h1, h2, h3]
        · by_cases h4 : (n : ℚ) / total < 0.8
          · simp [getHeatmapColor, bandOfColor, h0, h1, h2, h3, h4]
          · simp [getHeatmapColor, bandOfColor, h0, h1, h2, h3, h4]

theorem suggestionLE_trans (a b c : ScoredSuggestion)
    (hab : suggestionLE a b) (hbc : suggestionLE b c) : suggestionLE a c := by
  simp only [suggestionLE, decide_eq_true_eq] at *
  exact le_trans hbc hab

theorem suggestionLE_total (a b : ScoredSuggestion) :
    suggestionLE a b || suggestionLE b a := by
  simp only [suggestionLE, Bool.or_eq_true, decide_eq_true_eq]
  exact le_total b.compositeScore a.compositeScore

theorem buildSuggestion_date (ps : List Participant) (av : List Availability)
    (allU : List ((Int × Nat) × List ℚ)) (d : Int) (t : Nat) (u : List ℚ) :
    (buildSuggestion ps av allU d t u).date = d := by
  simp [buildSuggestion]

theorem buildSuggestion_time (ps : List Participant) (av : List Availability)
    (allU : List ((Int × Nat) × List ℚ)) (d : Int) (t : Nat) (u : List ℚ) :
    (buildSuggestion ps av allU d t u).time = t := by
  simp [buildSuggestion]

theorem slotFilter_pref (av : List Availability) (d : Int) (t : Nat) :
    ((av.filter fun a => a.date == d && a.time == t).filter
        fun a => a.status == Status.preferred).length =
      slotPreferredCount av d t := by
  unfold slotPreferredCount
  rw [List.filter_filter]
  refine congrArg List.length (List.filter_congr fun a _ => ?_)
  cases a.date == d <;> cases a.time == t <;>
    cases a.status == Status.preferred <;> rfl

theorem slotFilter_works (av : List Availability) (d : Int) (t : Nat) :
    ((av.filter fun a => a.date == d && a.time == t).filter
        fun a => a.status == Status.works).length =
      slotWorksCount av d t := by
  unfold slotWorksCount
  rw [List.filter_filter]
  refine congrArg List.length (List.filter_congr fun a _ => ?_)
  cases a.date == d <;> cases a.time == t <;>
    cases a.status == Status.works <;> rfl

theorem buildSuggestion_preferredCount (ps : List Participant)
    (av : List Availability) (allU : List ((Int × Nat) × List ℚ))
    (d : Int) (t : Nat) (u : List ℚ) :
    (buildSuggestion ps av allU d t u).preferredCount =
      slotPreferredCount av d t := by
  simp only [buildSuggestion, slotFilter_pref]

theorem buildSuggestion_worksCount (ps : List Participant)
    (av : List Availability) (allU : List ((Int × Nat) × List ℚ))
    (d : Int) (t : Nat) (u : List ℚ) :
    (buildSuggestion ps av allU d t u).worksCount = slotWorksCount av d t := by
  simp only [buildSuggestion, slotFilter_works]

theorem buildSuggestion_availableCount (ps : List Participant)
    (av : List Availability) (allU : List ((Int × Nat) × List ℚ))
    (d : Int) (t : Nat) (u : List ℚ) :
    (buildSuggestion ps av allU d t u).availableCount =
      slotPreferredCount av d t + slotWorksCount av d t := by
  simp only [buildSuggestion, slotFilter_pref, slotFilter_works]

theorem buildSuggestion_socialWelfare (ps : List Participant)
    (av : List Availability) (allU : List ((Int × Nat) × List ℚ))
    (d : Int) (t : Nat) (u : List ℚ) :
    (buildSuggestion ps av allU d t u).socialWelfare =
      calculateSocialWelfare u := by
  simp [buildSuggestion]

theorem buildSuggestion_egalitarian (ps : List Participant)
    (av : List Availability) (allU : List ((Int × Nat) × List ℚ))
    (d : Int) (t : Nat) (u : List ℚ) :
    (buildSuggestion ps av allU d t u).egalitarian =
      calculateEgalitarian u := by
  simp [buildSuggestion]

theorem buildSuggestion_fairnessScore (ps : List Participant)
    (av : List Availability) (allU : List ((Int × Nat) × List ℚ))
    (d : Int) (t : Nat) (u : List ℚ) :
    (buildSuggestion ps av allU d t u).fairnessScore =
      calculateFairness u := by
  simp [buildSuggestion]

theorem buildSuggestion_paretoRank (ps : List Participant)
    (av : List Availability) (allU : List ((Int × Nat) × List ℚ))
    (d : Int) (t : Nat) (u : List ℚ) :
    (buildSuggestion ps av allU d t u).paretoRank =
      calculateParetoRank u allU := by
  simp [buildSuggestion]

theorem buildSuggestion_nashProduct (ps : List Participant)
    (av : List Availability) (allU : List ((Int × Nat) × List ℚ))
    (d : Int) (t : Nat) (u : List ℚ) :
    (buildSuggestion ps av allU d t u).nashProduct =
      (if 0 < slotPreferredCount av d t + slotWorksCount av d t then
        ((calculateNashProduct u : ℚ) : ℝ) ^
          ((1 : ℝ) / (slotPreferredCount av d t + slotWorksCount av d t : ℕ))
      else 0) := by
  simp only [buildSuggestion, slotFilter_pref, slotFilter_works]

theorem addCompositeScore_toSuggestion (s : Suggestion) :
    (addCompositeScore s).toSuggestion = s := rfl

theorem addCompositeScore_compositeScore (s : Suggestion) :
    (addCompositeScore s).compositeScore =
      0.4 * (s.socialWelfare : ℝ) + 0.3 * s.nashProduct * 10 +
        0.15 * (s.egalitarian : ℝ) * 5 + 0.1 * s.fairnessScore * 10 -
        0.05 * (s.paretoRank : ℝ) := rfl

theorem foldl_add_eq_sum (c : ℚ) (l : List ℚ) :
    l.foldl (· + ·) c = c + l.sum := by
  induction l generalizing c with
  | nil => simp
  | cons x t ih => simp [List.foldl_cons, ih, add_assoc]

theorem foldl_mul_eq_prod (c : ℚ) (l : List ℚ) :
    l.foldl (· * ·) c = c * l.prod := by
  induction l generalizing c with
  | nil => simp
  | cons x t ih => simp [List.foldl_cons, ih, mul_assoc]

theorem calculateSocialWelfare_eq_sum (u : List ℚ) :
    calculateSocialWelfare u = u.sum := by
  simp [calculateSocialWelfare, foldl_add_eq_sum]

theorem calculateNashProduct_eq (u : List ℚ) :
    calculateNashProduct u =
      if (u.filter fun x => 0 < x) = [] then 0
      else (u.filter fun x => 0 < x).prod := by
  simp only [calculateNashProduct, List.isEmpty_iff]
  split_ifs with h
  · rfl
  · rw [foldl_mul_eq_prod, one_mul]

theorem calculateUtilities_mem_values (ps : List Participant)
    (av : List Availability) (d : Int) (t : Nat) :
    ∀ x ∈ calculateUtilities ps av d t, x = 0 ∨ x = 1 ∨ x = 2 := by
  intro x hx
  rw [calculateUtilities, List.mem_map] at hx
  obtain ⟨q, _, hq⟩ := hx
  subst hq
  cases hfind : av.find? fun a =>
      a.participant_id == q.id && a.date == d && a.time == t with
  | none => simp [UTILITY_WEIGHTS]
  | some a =>
    cases hs : a.status <;> simp [UTILITY_WEIGHTS, hs]

theorem find?_middle_congr {α : Type} (p : α → Bool) (l₁ l₂ : List α)
    (a b : α) (ha : p a = false) (hb : p b = false) :
    (l₁ ++ a :: l₂).find? p = (l₁ ++ b :: l₂).find? p := by
  rw [List.find?_append, List.find?_append,
    List.find?_cons_of_neg _ (by simp [ha]),
    List.find?_cons_of_neg _ (by simp [hb])]

theorem calculateUtilities_middle (P₁ P₂ : List Participant)
    (l₁ l₂ : List Availability) (q₀ : Participant) (d : Int) (t : Nat)
    (hP₁ : ∀ q ∈ P₁, q.id ≠ q₀.id) (hP₂ : ∀ q ∈ P₂, q.id ≠ q₀.id)
    (hfirst : ∀ a ∈ l₁,
      ¬(a.participant_id = q₀.id ∧ a.date = d ∧ a.time = t)) :
    ∃ x y : List ℚ, ∀ s : Status,
      calculateUtilities (P₁ ++ q₀ :: P₂) (l₁ ++ ⟨q₀.id, d, t, s⟩ :: l₂) d t =
        x ++ (if s = .unavailable then 0
          else if s = .preferred then 2 else 1) :: y := by
  classical
  refine ⟨P₁.map fun q =>
      match l₁.find? (fun a =>
          a.participant_id == q.id && a.date == d && a.time == t) |>.or
        (l₂.find? fun a =>
          a.participant_id == q.id && a.date == d && a.time == t) with
      | none => UTILITY_WEIGHTS.unavailable
      | some a =>
        if a.status = .unavailable then UTILITY_WEIGHTS.unavailable
        else if a.status = .preferred then UTILITY_WEIGHTS.preferred
        else UTILITY_WEIGHTS.works,
    P₂.map fun q =>
      match l₁.find? (fun a =>
          a.participant_id == q.id && a.date == d && a.time == t) |>.or
        (l₂.find? fun a =>
          a.participant_id == q.id && a.date == d && a.time == t) with
      | none => UTILITY_WEIGHTS.unavailable
      | some a =>
        if a.status = .unavailable then UTILITY_WEIGHTS.unavailable
        else if a.status = .preferred then UTILITY_WEIGHTS.preferred
        else UTILITY_WEIGHTS.works, fun s => ?_⟩
  rw [calculateUtilities, List.map_append, List.map_cons]
  refine congrArg₂ _ (List.map_congr_left fun q hq => ?_) (congrArg₂ _ ?_
    (List.map_congr_left fun q hq => ?_))
  · rw [List.find?_append,
      List.find?_cons_of_neg _ (by simp [Ne.symm (hP₁ q hq)])]
  · have hnone : l₁.find? (fun a =>
        a.participant_id == q₀.id && a.date == d && a.time == t) = none := by
      rw [List.find?_eq_none]
      intro a ha
      have := hfirst a ha
      simp only [Bool.and_eq_true, beq_iff_eq]
      tauto
    rw [List.find?_append, hnone, Option.none_or,
      List.find?_cons_of_pos _ (by simp)]
    cases s <;> simp [UTILITY_WEIGHTS]
  · rw [List.find?_append,
      List.find?_cons_of_neg _ (by simp [Ne.symm (hP₂ q hq)])]

theorem slotPreferredCount_append (l₁ l₂ : List Availability)
    (d : Int) (t : Nat) :
    slotPreferredCount (l₁ ++ l₂) d t =
      slotPreferredCount l₁ d t + slotPreferredCount l₂ d t := by
  simp [slotPreferredCount, List.filter_append]

theorem slotWorksCount_append (l₁ l₂ : List Availability) (d : Int) (t : Nat) :
    slotWorksCount (l₁ ++ l₂) d t =
      slotWorksCount l₁ d t + slotWorksCount l₂ d t := by
  simp [slotWorksCount, List.filter_append]

theorem slotPreferredCount_cons_self (p : Nat) (l : List Availability)
    (d : Int) (t : Nat) (s : Status) :
    slotPreferredCount (⟨p, d, t, s⟩ :: l) d t =
      (if s = .preferred then 1 else 0) + slotPreferredCount l d t := by
  cases s <;> simp [slotPreferredCount, List.filter_cons, Nat.add_comm]

theorem slotWorksCount_cons_self (p : Nat) (l : List Availability)
    (d : Int) (t : Nat) (s : Status) :
    slotWorksCount (⟨p, d, t, s⟩ :: l) d t =
      (if s = .works then 1 else 0) + slotWorksCount l d t := by
  cases s <;> simp [slotWorksCount, List.filter_cons, Nat.add_comm]

theorem positives_length_le (participants : List Participant)
    (av : List Availability) (d : Int) (t : Nat)
    (hnodup : (participants.map Participant.id).Nodup) :
    ((calculateUtilities participants av d t).filter fun u => 0 < u).length ≤
      slotPreferredCount av d t + slotWorksCount av d t := by
  classical
  rw [calculateUtilities, List.filter_map, List.length_map]
  set f : Participant → ℚ := fun participant =>
    match av.find? fun a =>
        a.participant_id == participant.id && a.date == d && a.time == t with
    | none => UTILITY_WEIGHTS.unavailable
    | some a =>
      if a.status = .unavailable then UTILITY_WEIGHTS.unavailable
      else if a.status = .preferred then UTILITY_WEIGHTS.preferred
      else UTILITY_WEIGHTS.works with hf
  set l := participants.filter ((fun u => decide (0 < u)) ∘ f) with hl
  set E := av.filter fun a =>
    a.date == d && a.time == t &&
      (a.status == Status.works || a.status == Status.preferred) with hE
  have hsub : l.map Participant.id ⊆ E.map Availability.participant_id := by
    intro i hi
    rw [List.mem_map] at hi
    obtain ⟨q, hq, rfl⟩ := hi
    rw [hl, List.mem_filter] at hq
    obtain ⟨-, hqpos⟩ := hq
    simp only [Function.comp, decide_eq_true_eq] at hqpos
    simp only [hf] at hqpos
    cases hfind : av.find? fun a =>
        a.participant_id == q.id && a.date == d && a.time == t with
    | none => rw [hfind] at hqpos; simp [UTILITY_WEIGHTS] at hqpos
    | some a =>
      have hq2 : 0 < (if a.status = Status.unavailable then
          UTILITY_WEIGHTS.unavailable
        else if a.status = Status.preferred then UTILITY_WEIGHTS.preferred
        else UTILITY_WEIGHTS.works) := by
        rw [hfind] at hqpos
        exact hqpos
      have hpred := List.find?_some hfind
      simp only [Bool.and_eq_true, beq_iff_eq] at hpred
      obtain ⟨⟨hpid, hdate⟩, htime⟩ := hpred
      have hamem : a ∈ av := List.mem_of_find?_eq_some hfind
      have hstat : a.status = Status.works ∨ a.status = Status.preferred := by
        cases hs : a.status with
        | unavailable => rw [hs] at hq2; simp [UTILITY_WEIGHTS] at hq2
        | works => exact Or.inl rfl
        | preferred => exact Or.inr rfl
      have haE : a ∈ E := by
        rw [hE, List.mem_filter]
        refine ⟨hamem, ?_⟩
        simp only [Bool.and_eq_true, Bool.or_eq_true, beq_iff_eq]
        rcases hstat with h | h <;> simp [hdate, htime, h]
      rw [List.mem_map]
      exact ⟨a, haE, hpid⟩
  have hndl : (l.map Participant.id).Nodup :=
    hnodup.sublist (List.Sublist.map _ (List.filter_sublist participants))
  have hcard : (l.map Participant.id).length ≤
      (E.map Availability.participant_id).length := by
    calc (l.map Participant.id).length
        = (l.map Participant.id).toFinset.card :=
          (List.toFinset_card_of_nodup hndl).symm
      _ ≤ (E.map Availability.participant_id).toFinset.card := by
          refine Finset.card_le_card fun i hi => ?_
          rw [List.mem_toFinset] at *
          exact hsub hi
      _ ≤ (E.map Availability.participant_id).length :=
          List.toFinset_card_le _
  have hElen : E.length = slotWorksCount av d t + slotPreferredCount av d t :=
    getSlotAvailability_eq av d t
  rw [List.length_map] at hcard
  rw [List.length_map] at hcard
  omega

theorem one_le_prod_of_one_le (l : List ℚ) (h : ∀ x ∈ l, 1 ≤ x) :
    1 ≤ l.prod := by
  induction l with
  | nil => simp
  | cons x t ih =>
    rw [List.prod_cons]
    have hx := h x (List.mem_cons_self x t)
    have ht := ih fun y hy => h y (List.mem_cons_of_mem x hy)
    calc (1 : ℚ) = 1 * 1 := by norm_num
      _ ≤ x * t.prod := by
          exact mul_le_mul hx ht (by norm_num) (le_trans zero_le_one hx)

theorem prod_le_two_pow (l : List ℚ) (h2 : ∀ x ∈ l, x ≤ 2)
    (hpos : ∀ x ∈ l, 0 < x) : l.prod ≤ 2 ^ l.length := by
  induction l with
  | nil => simp
  | cons x t ih =>
    rw [List.prod_cons, List.length_cons, pow_succ]
    have hx := h2 x (List.mem_cons_self x t)
    have ht := ih (fun y hy => h2 y (List.mem_cons_of_mem x hy))
      (fun y hy => hpos y (List.mem_cons_of_mem x hy))
    have htn : (0 : ℚ) ≤ t.prod :=
      le_of_lt (List.prod_pos fun y hy => hpos y (List.mem_cons_of_mem x hy))
    calc x * t.prod ≤ 2 * 2 ^ t.length := by
          exact mul_le_mul hx ht htn (by norm_num)
      _ = 2 ^ t.length * 2 := by ring

theorem nash_rpow_step (P : ℚ) (n : ℕ) (hn : 0 < n) (hP1 : 1 ≤ P)
    (hPn : P ≤ 2 ^ n) :
    ((P : ℝ)) ^ ((1 : ℝ) / n) ≤ ((2 * P : ℚ) : ℝ) ^ ((1 : ℝ) / (n + 1)) := by
  have hx0 : (0 : ℝ) ≤ (P : ℝ) := by positivity
  have hx1 : (1 : ℝ) ≤ (P : ℝ) := by exact_mod_cast hP1
  have hxn : (P : ℝ) ≤ 2 ^ n := by exact_mod_cast hPn
  have hy0 : (0 : ℝ) ≤ ((2 * P : ℚ) : ℝ) := by push_cast; positivity
  have hn0 : (n : ℝ) ≠ 0 := Nat.cast_ne_zero.2 hn.ne'
  have hn1 : ((n : ℝ) + 1) ≠ 0 := by positivity
  refine le_of_pow_le_pow_left (n := n * (n + 1)) (by positivity)
    (Real.rpow_nonneg hy0 _) ?_
  have hL : ((P : ℝ) ^ ((1 : ℝ) / n)) ^ (n * (n + 1)) =
      (P : ℝ) ^ (n + 1) := by
    rw [← Real.rpow_natCast ((P : ℝ) ^ ((1 : ℝ) / n)) (n * (n + 1)),
      ← Real.rpow_mul hx0]
    have : (1 : ℝ) / n * ((n * (n + 1) : ℕ) : ℝ) = ((n + 1 : ℕ) : ℝ) := by
      push_cast
      field_simp
    rw [this, Real.rpow_natCast]
  have hR : (((2 * P : ℚ) : ℝ) ^ ((1 : ℝ) / (n + 1))) ^ (n * (n + 1)) =
      ((2 * P : ℚ) : ℝ) ^ n := by
    rw [← Real.rpow_natCast (((2 * P : ℚ) : ℝ) ^ ((1 : ℝ) / (n + 1)))
      (n * (n + 1)), ← Real.rpow_mul hy0]
    have : (1 : ℝ) / (n + 1) * ((n * (n + 1) : ℕ) : ℝ) = ((n : ℕ) : ℝ) := by
      push_cast
      field_simp
    rw [this, Real.rpow_natCast]
  rw [hL, hR]
  push_cast
  rw [mul_pow]
  rw [pow_succ]
  have hPn0 : (0 : ℝ) ≤ (P : ℝ) ^ n := by positivity
  calc (P : ℝ) ^ n * (P : ℝ) ≤ (P : ℝ) ^ n * 2 ^ n := by
        exact mul_le_mul_of_nonneg_left hxn hPn0
    _ = 2 ^ n * (P : ℝ) ^ n := by ring

theorem generateTimeSlots_ev4 : generateTimeSlots ev4 = [540, 570] := by
  simp [generateTimeSlots, ev4, timeSlotsFrom]

theorem generateDates_ev4 : generateDates ev4 = [0] := by
  simp [generateDates, ev4, datesFrom]

theorem firstPass_ev4 :
    firstPass [0] [540, 570] ps4 av4 = [((0, 540), [2, 1])] := by
  decide

theorem secondPass_ev4 :
    secondPass [0] [540, 570] ps4 av4 [((0, 540), [2, 1])] =
      [buildSuggestion ps4 av4 [((0, 540), [2, 1])] 0 540 [2, 1]] := by
  have h1 : lookupUtilities [((0, 540), ([2, 1] : List ℚ))] 0 540 =
      some [2, 1] := by decide
  have h2 : lookupUtilities [((0, 540), ([2, 1] : List ℚ))] 0 570 =
      none := by decide
  simp [secondPass, h1, h2]

theorem calculateSuggestions_ev4 :
    calculateSuggestions ev4 ps4 av4 =
      [addCompositeScore
        (buildSuggestion ps4 av4 [((0, 540), [2, 1])] 0 540 [2, 1])] := by
  have hps : ¬ (ps4.length = 0) := by decide
  simp [calculateSuggestions, hps, generateTimeSlots_ev4, generateDates_ev4,
    firstPass_ev4, secondPass_ev4]

theorem generateTimeSlots_ev10 : generateTimeSlots ev10 = [540] := by
  simp [generateTimeSlots, ev10, timeSlotsFrom]

theorem generateDates_ev10 : generateDates ev10 = [0] := by
  simp [generateDates, ev10, datesFrom]

theorem firstPass_ev10 :
    firstPass [0] [540] ps10 av10 = [((0, 540), [1])] := by
  decide

theorem secondPass_ev10 :
    secondPass [0] [540] ps10 av10 [((0, 540), [1])] =
      [buildSuggestion ps10 av10 [((0, 540), [1])] 0 540 [1]] := by
  have h1 : lookupUtilities [((0, 540), ([1] : List ℚ))] 0 540 =
      some [1] := by decide
  simp [secondPass, h1]

theorem calculateSuggestions_ev10 :
    calculateSuggestions ev10 ps10 av10 =
      [addCompositeScore
        (buildSuggestion ps10 av10 [((0, 540), [1])] 0 540 [1])] := by
  have hps : ¬ (ps10.length = 0) := by decide
  simp [calculateSuggestions, hps, generateTimeSlots_ev10,
    generateDates_ev10, firstPass_ev10, secondPass_ev10]

theorem lookupUtilities_firstPass (dates : List Int) (times : List Nat)
    (ps : List Participant) (av : List Availability) (d : Int) (t : Nat)
    (u : List ℚ)
    (h : lookupUtilities (firstPass dates times ps av) d t = some u) :
    u = calculateUtilities ps av d t := by
  rw [lookupUtilities] at h
  cases hfind : (firstPass dates times ps av).find? fun e =>
      e.1.1 == d && e.1.2 == t with
  | none => rw [hfind] at h; cases h
  | some e =>
    rw [hfind] at h
    simp at h
    have hmem := List.mem_of_find?_eq_some hfind
    have hpred := List.find?_some hfind
    simp only [Bool.and_eq_true, beq_iff_eq] at hpred
    obtain ⟨hd, ht⟩ := hpred
    rw [firstPass, List.mem_flatMap] at hmem
    obtain ⟨d', _, hmem2⟩ := hmem
    rw [List.mem_filterMap] at hmem2
    obtain ⟨t', _, hsome⟩ := hmem2
    have hsome2 : (if 0 < ((calculateUtilities ps av d' t').filter
          fun v => 0 < v).length then
        some ((d', t'), calculateUtilities ps av d' t') else none) =
        some e := hsome
    split at hsome2
    · cases hsome2
      rw [← h, ← hd, ← ht]
    · cases hsome2

theorem mem_calculateSuggestions (event : Event) (ps : List Participant)
    (av : List Availability) (s : ScoredSuggestion)
    (hs : s ∈ calculateSuggestions event ps av) :
    s = slotScored event ps av s.date s.time := by
  rw [calculateSuggestions] at hs
  by_cases hp : ps.length = 0
  · rw [if_pos hp] at hs
    cases hs
  · rw [if_neg hp] at hs
    have hs' := List.mem_of_mem_take hs
    rw [List.mem_mergeSort, List.mem_map] at hs'
    obtain ⟨x, hx, rfl⟩ := hs'
    rw [secondPass, List.mem_flatMap] at hx
    obtain ⟨d', _, hx2⟩ := hx
    rw [List.mem_filterMap] at hx2
    obtain ⟨t', _, hsome⟩ := hx2
    cases hlk : lookupUtilities
        (firstPass (generateDates event) (generateTimeSlots event) ps av)
        d' t' with
    | none => rw [hlk] at hsome; cases hsome
    | some u =>
      rw [hlk] at hsome
      cases hsome
      have hu : u = calculateUtilities ps av d' t' :=
        lookupUtilities_firstPass _ _ _ _ _ _ _ hlk
      subst hu
      have hdate : (addCompositeScore (buildSuggestion ps av
          (firstPass (generateDates event) (generateTimeSlots event) ps av)
          d' t' (calculateUtilities ps av d' t'))).toSuggestion.date = d' :=
        buildSuggestion_date _ _ _ _ _ _
      have htime : (addCompositeScore (buildSuggestion ps av
          (firstPass (generateDates event) (generateTimeSlots event) ps av)
          d' t' (calculateUtilities ps av d' t'))).toSuggestion.time = t' :=
        buildSuggestion_time _ _ _ _ _ _
      rw [slotScored, hdate, htime]

/-! ## Claim theorems -/

/-- C1: every emitted suggestion carries
compositeScore = 0.4·socialWelfare + 0.3·nashProduct·10 + 0.15·egalitarian·5
+ 0.10·fairnessScore·10 − 0.05·paretoRank (with `nashProduct` the normalized
value stored in the record); the returned list is sorted in non-increasing
order of compositeScore; and at most 5 suggestions are returned. -/
theorem claim_C1_ranker_output (event : Event)
    (participants : List Participant) (availability : List Availability) :
    (∀ s ∈ calculateSuggestions event participants availability,
      s.compositeScore =
        0.4 * (s.socialWelfare : ℝ) + 0.3 * s.nashProduct * 10 +
          0.15 * (s.egalitarian : ℝ) * 5 + 0.1 * s.fairnessScore * 10 -
          0.05 * (s.paretoRank : ℝ)) ∧
    List.Pairwise (fun a b => b.compositeScore ≤ a.compositeScore)
      (calculateSuggestions event participants availability) ∧
    (calculateSuggestions event participants availability).length ≤ 5 := by
  unfold calculateSuggestions
  by_cases hp : participants.length = 0
  · simp [hp]
  · simp only [if_neg hp]
    refine ⟨?_, ?_, ?_⟩
    · intro s hs
      have hs' := List.mem_of_mem_take hs
      rw [List.mem_mergeSort, List.mem_map] at hs'
      obtain ⟨x, _, rfl⟩ := hs'
      simp [addCompositeScore, RANKING_WEIGHTS]
    · have hsorted := @List.sorted_mergeSort ScoredSuggestion suggestionLE
        suggestionLE_trans suggestionLE_total
        ((secondPass (generateDates event) (generateTimeSlots event)
            participants availability
            (firstPass (generateDates event) (generateTimeSlots event)
              participants availability)).map addCompositeScore)
      have htake := hsorted.sublist (List.take_sublist 5 _)
      exact htake.imp fun h => by
        simpa [suggestionLE, decide_eq_true_eq] using h
    · exact List.length_take_le 5 _

/-- C1 witness: the ranker applied to the concrete spec scenario, with the
membership hypothesis discharged at the single emitted suggestion. -/
theorem claim_C1_witness :
    ∃ s ∈ calculateSuggestions ev4 ps4 av4,
      s.compositeScore =
        0.4 * (s.socialWelfare : ℝ) + 0.3 * s.nashProduct * 10 +
          0.15 * (s.egalitarian : ℝ) * 5 + 0.1 * s.fairnessScore * 10 -
          0.05 * (s.paretoRank : ℝ) := by
  refine ⟨addCompositeScore
    (buildSuggestion ps4 av4 [((0, 540), [2, 1])] 0 540 [2, 1]), ?_, ?_⟩
  · rw [calculateSuggestions_ev4]
    exact List.mem_singleton.2 rfl
  · exact (claim_C1_ranker_output ev4 ps4 av4).1 _
      (by rw [calculateSuggestions_ev4]; exact List.mem_singleton.2 rfl)

theorem slotScored_socialWelfare (event : Event) (ps : List Participant)
    (av : List Availability) (d : Int) (t : Nat) :
    (slotScored event ps av d t).socialWelfare =
      calculateSocialWelfare (calculateUtilities ps av d t) := by
  show (buildSuggestion ps av _ d t
    (calculateUtilities ps av d t)).socialWelfare = _
  rw [buildSuggestion_socialWelfare]

theorem slotScored_nashProduct (event : Event) (ps : List Participant)
    (av : List Availability) (d : Int) (t : Nat) :
    (slotScored event ps av d t).nashProduct =
      (if 0 < slotPreferredCount av d t + slotWorksCount av d t then
        ((calculateNashProduct (calculateUtilities ps av d t) : ℚ) : ℝ) ^
          ((1 : ℝ) / (slotPreferredCount av d t + slotWorksCount av d t : ℕ))
      else 0) := by
  show (buildSuggestion ps av _ d t
    (calculateUtilities ps av d t)).nashProduct = _
  rw [buildSuggestion_nashProduct]

/-- C2 (amended): under the persisted-data invariants — the changed
participant is listed, participant ids are distinct, and no earlier row
exists for the changed (participant, date, time) key — flipping that one row
from unavailable to preferred never decreases the slot's socialWelfare and
never decreases its emitted (normalized) nashProduct. -/
theorem claim_C2_amended_monotonicity (event : Event)
    (participants : List Participant) (l₁ l₂ : List Availability)
    (p : Nat) (d : Int) (t : Nat)
    (hmem : p ∈ participants.map Participant.id)
    (hnodup : (participants.map Participant.id).Nodup)
    (hfirst : ∀ a ∈ l₁, ¬(a.participant_id = p ∧ a.date = d ∧ a.time = t)) :
    (slotScored event participants
        (l₁ ++ ⟨p, d, t, .unavailable⟩ :: l₂) d t).socialWelfare ≤
      (slotScored event participants
        (l₁ ++ ⟨p, d, t, .preferred⟩ :: l₂) d t).socialWelfare ∧
    (slotScored event participants
        (l₁ ++ ⟨p, d, t, .unavailable⟩ :: l₂) d t).nashProduct ≤
      (slotScored event participants
        (l₁ ++ ⟨p, d, t, .preferred⟩ :: l₂) d t).nashProduct := by
  classical
  have hnodup' := hnodup
  obtain ⟨q₀, hq₀mem, hq₀id⟩ := List.mem_map.1 hmem
  subst hq₀id
  obtain ⟨P₁, P₂, rfl⟩ := List.append_of_mem hq₀mem
  rw [List.map_append, List.map_cons] at hnodup
  obtain ⟨-, h2, hdisj⟩ := List.nodup_append.1 hnodup
  obtain ⟨hq₀P₂, -⟩ := List.nodup_cons.1 h2
  have hq₀P₁ : q₀.id ∉ P₁.map Participant.id :=
    fun h => hdisj h (List.mem_cons_self _ _)
  have hP₁ : ∀ q ∈ P₁, q.id ≠ q₀.id :=
    fun q hq h => hq₀P₁ (h ▸ List.mem_map_of_mem _ hq)
  have hP₂ : ∀ q ∈ P₂, q.id ≠ q₀.id :=
    fun q hq h => hq₀P₂ (h ▸ List.mem_map_of_mem _ hq)
  obtain ⟨x, y, hxy⟩ :=
    calculateUtilities_middle P₁ P₂ l₁ l₂ q₀ d t hP₁ hP₂ hfirst
  have hB : calculateUtilities (P₁ ++ q₀ :: P₂)
      (l₁ ++ ⟨q₀.id, d, t, .unavailable⟩ :: l₂) d t = x ++ 0 :: y := by
    simpa using hxy .unavailable
  have hA : calculateUtilities (P₁ ++ q₀ :: P₂)
      (l₁ ++ ⟨q₀.id, d, t, .preferred⟩ :: l₂) d t = x ++ 2 :: y := by
    simpa using hxy .preferred
  -- raw works/preferred counts of the slot before and after
  have hpcB : slotPreferredCount (l₁ ++ ⟨q₀.id, d, t, .unavailable⟩ :: l₂) d t
      = slotPreferredCount l₁ d t + slotPreferredCount l₂ d t := by
    rw [slotPreferredCount_append, slotPreferredCount_cons_self]
    simp
  have hpcA : slotPreferredCount (l₁ ++ ⟨q₀.id, d, t, .preferred⟩ :: l₂) d t
      = slotPreferredCount l₁ d t + slotPreferredCount l₂ d t + 1 := by
    rw [slotPreferredCount_append, slotPreferredCount_cons_self]
    simp
    omega
  have hwcB : slotWorksCount (l₁ ++ ⟨q₀.id, d, t, .unavailable⟩ :: l₂) d t
      = slotWorksCount l₁ d t + slotWorksCount l₂ d t := by
    rw [slotWorksCount_append, slotWorksCount_cons_self]
    simp
  have hwcA : slotWorksCount (l₁ ++ ⟨q₀.id, d, t, .preferred⟩ :: l₂) d t
      = slotWorksCount l₁ d t + slotWorksCount l₂ d t := by
    rw [slotWorksCount_append, slotWorksCount_cons_self]
    simp
  constructor
  · -- social welfare is monotone
    rw [slotScored_socialWelfare, slotScored_socialWelfare, hB, hA,
      calculateSocialWelfare_eq_sum, calculateSocialWelfare_eq_sum,
      List.sum_append, List.sum_append, List.sum_cons, List.sum_cons]
    linarith
  · -- the emitted (normalized) Nash product is monotone
    rw [slotScored_nashProduct, slotScored_nashProduct, hB, hA,
      hpcB, hpcA, hwcB, hwcA]
    set nB := slotPreferredCount l₁ d t + slotPreferredCount l₂ d t +
      (slotWorksCount l₁ d t + slotWorksCount l₂ d t) with hnB
    have hposmB := positives_length_le (P₁ ++ q₀ :: P₂)
      (l₁ ++ ⟨q₀.id, d, t, .unavailable⟩ :: l₂) d t hnodup'
    rw [hB, hpcB, hwcB] at hposmB
    have hfB : (x ++ 0 :: y).filter (fun u => 0 < u) =
        x.filter (fun u => 0 < u) ++ y.filter (fun u => 0 < u) := by
      rw [List.filter_append, List.filter_cons]
      simp
    have hfA : (x ++ 2 :: y).filter (fun u => 0 < u) =
        x.filter (fun u => 0 < u) ++ 2 :: y.filter (fun u => 0 < u) := by
      rw [List.filter_append, List.filter_cons]
      simp
    set L := x.filter (fun u => 0 < u) ++ y.filter (fun u => 0 < u) with hL
    have hmB : L.length ≤ nB := by
      rw [← hfB]
      omega
    have hLvals : ∀ v ∈ L, v = 1 ∨ v = 2 := by
      intro v hv
      have hvmem : v ∈ (x ++ 0 :: y).filter fun u => 0 < u := by
        rw [hfB]
        exact hv
      rw [List.mem_filter] at hvmem
      obtain ⟨hvin, hvpos⟩ := hvmem
      rw [← hB] at hvin
      have := calculateUtilities_mem_values _ _ _ _ v hvin
      simp only [decide_eq_true_eq] at hvpos
      rcases this with h | h | h
      · rw [h] at hvpos
        norm_num at hvpos
      · exact Or.inl h
      · exact Or.inr h
    have hPA : calculateNashProduct (x ++ 2 :: y) = 2 * L.prod := by
      rw [calculateNashProduct_eq, hfA, if_neg (by simp),
        List.prod_append, List.prod_cons, hL, List.prod_append]
      ring
    by_cases hLnil : L = []
    · -- no positive utility before the change
      have hPB : calculateNashProduct (x ++ 0 :: y) = 0 := by
        rw [calculateNashProduct_eq, hfB, if_pos hLnil]
      rw [hPB, hPA, hLnil]
      have h2c : ((2 * List.prod ([] : List ℚ) : ℚ) : ℝ) = 2 := by
        push_cast
        norm_num
      rw [h2c]
      have hApos : 0 < slotPreferredCount l₁ d t + slotPreferredCount l₂ d t +
          1 + (slotWorksCount l₁ d t + slotWorksCount l₂ d t) := by omega
      rw [if_pos hApos]
      by_cases h1 : 0 < nB
      · have hne : (1 : ℝ) / ((nB : ℕ) : ℝ) ≠ 0 := by
          have h0 : (0 : ℝ) < ((nB : ℕ) : ℝ) := by exact_mod_cast h1
          positivity
        rw [if_pos h1, Rat.cast_zero, Real.zero_rpow hne]
        positivity
      · rw [if_neg h1]
        positivity
    · -- at least one positive utility before the change
      have hmBpos : 0 < L.length := List.length_pos.2 hLnil
      have hnBpos : 0 < nB := lt_of_lt_of_le hmBpos hmB
      have hPB : calculateNashProduct (x ++ 0 :: y) = L.prod := by
        rw [calculateNashProduct_eq, hfB, if_neg hLnil]
      have h1L : 1 ≤ L.prod :=
        one_le_prod_of_one_le L fun v hv => by
          rcases hLvals v hv with h | h <;> simp [h]
      have h2L : L.prod ≤ 2 ^ nB := by
        calc L.prod ≤ 2 ^ L.length :=
              prod_le_two_pow L
                (fun v hv => by
                  rcases hLvals v hv with h | h <;> simp [h])
                (fun v hv => by
                  rcases hLvals v hv with h | h <;> simp [h])
          _ ≤ 2 ^ nB := by
              exact pow_le_pow_right (by norm_num) hmB
      rw [hPB, hPA, if_pos hnBpos, if_pos (by omega : 0 <
        slotPreferredCount l₁ d t + slotPreferredCount l₂ d t + 1 +
          (slotWorksCount l₁ d t + slotWorksCount l₂ d t))]
      rw [show slotPreferredCount l₁ d t + slotPreferredCount l₂ d t + 1 +
          (slotWorksCount l₁ d t + slotWorksCount l₂ d t) = nB + 1 from by
        omega]
      have hstep := nash_rpow_step L.prod nB hnBpos h1L h2L
      calc ((L.prod : ℚ) : ℝ) ^ ((1 : ℝ) / ((nB : ℕ) : ℝ)) ≤
            ((2 * L.prod : ℚ) : ℝ) ^ ((1 : ℝ) / ((nB : ℝ) + 1)) := hstep
        _ = ((2 * L.prod : ℚ) : ℝ) ^ ((1 : ℝ) / (((nB + 1 : ℕ)) : ℝ)) := by
            norm_num

/-- C2, counterexample: upgrading one participant's row from unavailable to
preferred can strictly DECREASE the slot's compositeScore (first conjunct:
with 17 alternative slots the upgraded slot newly Pareto-dominates, the
0.05·paretoRank penalty grows by 0.85 while the other terms gain only 0.80),
and when the changed row belongs to a participant who is not in the
participant list, the emitted nashProduct also strictly decreases (second
conjunct: the normalization exponent grows without a matching utility). -/
theorem claim_C2_counterexample :
    (slotScored evC psC (avC .preferred) 0 540).compositeScore <
      (slotScored evC psC (avC .unavailable) 0 540).compositeScore ∧
    (slotScored ⟨0, 0, 540, 570⟩ [⟨1⟩]
        [⟨1, 0, 540, .preferred⟩, ⟨2, 0, 540, .preferred⟩] 0 540).nashProduct <
      (slotScored ⟨0, 0, 540, 570⟩ [⟨1⟩]
        [⟨1, 0, 540, .preferred⟩, ⟨2, 0, 540, .unavailable⟩] 0
          540).nashProduct := by
  constructor
  · -- compositeScore decreases on the 18-slot input
    have hslots : generateTimeSlots evC =
        [540, 570, 600, 630, 660, 690, 720, 750, 780, 810, 840, 870, 900,
          930, 960, 990, 1020, 1050] := by
      simp [generateTimeSlots, evC, timeSlotsFrom]
    have hdates : generateDates evC = [0] := by
      simp [generateDates, evC, datesFrom]
    rw [slotScored, slotScored, addCompositeScore_compositeScore,
      addCompositeScore_compositeScore]
    rw [buildSuggestion_socialWelfare, buildSuggestion_socialWelfare,
      buildSuggestion_nashProduct, buildSuggestion_nashProduct,
      buildSuggestion_egalitarian, buildSuggestion_egalitarian,
      buildSuggestion_fairnessScore, buildSuggestion_fairnessScore,
      buildSuggestion_paretoRank, buildSuggestion_paretoRank,
      hslots, hdates]
    have huB : calculateUtilities psC (avC .unavailable) 0 540 = [2, 0] := by
      decide
    have huA : calculateUtilities psC (avC .preferred) 0 540 = [2, 2] := by
      decide
    have hpcB : slotPreferredCount (avC .unavailable) 0 540 = 1 := by decide
    have hwcB : slotWorksCount (avC .unavailable) 0 540 = 0 := by decide
    have hpcA : slotPreferredCount (avC .preferred) 0 540 = 2 := by decide
    have hwcA : slotWorksCount (avC .preferred) 0 540 = 0 := by decide
    have hrB : calculateParetoRank [2, 0]
        (firstPass [0]
          [540, 570, 600, 630, 660, 690, 720, 750, 780, 810, 840, 870, 900,
            930, 960, 990, 1020, 1050] psC (avC .unavailable)) = 0 := by
      decide
    have hrA : calculateParetoRank [2, 2]
        (firstPass [0]
          [540, 570, 600, 630, 660, 690, 720, 750, 780, 810, 840, 870, 900,
            930, 960, 990, 1020, 1050] psC (avC .preferred)) = 17 := by
      decide
    rw [huB, huA, hpcB, hwcB, hpcA, hwcA, hrB, hrA]
    have hswB : calculateSocialWelfare [2, 0] = 2 := by
      norm_num [calculateSocialWelfare, List.foldl]
    have hswA : calculateSocialWelfare [2, 2] = 4 := by
      norm_num [calculateSocialWelfare, List.foldl]
    have hnpB : calculateNashProduct [2, 0] = 2 := by
      norm_num [calculateNashProduct, List.filter, List.foldl]
    have hnpA : calculateNashProduct [2, 2] = 4 := by
      norm_num [calculateNashProduct, List.filter, List.foldl]
    have hegB : calculateEgalitarian [2, 0] = 2 := by
      norm_num [calculateEgalitarian, List.filter, List.foldl]
    have hegA : calculateEgalitarian [2, 2] = 2 := by
      norm_num [calculateEgalitarian, List.filter, List.foldl]
    have hfB : calculateFairness [2, 0] = 1 := by
      norm_num [calculateFairness, List.filter, List.foldl, Real.sqrt_zero]
    have hfA : calculateFairness [2, 2] = 1 := by
      norm_num [calculateFairness, List.filter, List.foldl, Real.sqrt_zero]
    rw [hswB, hswA, hnpB, hnpA, hegB, hegA, hfB, hfA]
    rw [if_pos (by norm_num : 0 < 2 + 0), if_pos (by norm_num : 0 < 1 + 0)]
    have hr4 : ((4 : ℚ) : ℝ) ^ ((1 : ℝ) / ((2 + 0 : ℕ) : ℝ)) = 2 := by
      have h1 : ((4 : ℚ) : ℝ) = (4 : ℝ) := by norm_num
      have h2 : ((2 + 0 : ℕ) : ℝ) = 2 := by norm_num
      rw [h1, h2, ← Real.sqrt_eq_rpow,
        show (4 : ℝ) = 2 ^ 2 by norm_num,
        Real.sqrt_sq (by norm_num : (0 : ℝ) ≤ 2)]
    have hr2 : ((2 : ℚ) : ℝ) ^ ((1 : ℝ) / ((1 + 0 : ℕ) : ℝ)) = 2 := by
      have h1 : ((2 : ℚ) : ℝ) = (2 : ℝ) := by norm_num
      have h2 : (1 : ℝ) / ((1 + 0 : ℕ) : ℝ) = 1 := by norm_num
      rw [h1, h2, Real.rpow_one]
    rw [hr4, hr2]
    norm_num [RANKING_WEIGHTS]
  · -- nashProduct decreases when the changed row is a stale one
    rw [slotScored_nashProduct, slotScored_nashProduct]
    have huB : calculateUtilities [⟨1⟩]
        [⟨1, 0, 540, .preferred⟩, ⟨2, 0, 540, .unavailable⟩] 0 540 = [2] := by
      decide
    have huA : calculateUtilities [⟨1⟩]
        [⟨1, 0, 540, .preferred⟩, ⟨2, 0, 540, .preferred⟩] 0 540 = [2] := by
      decide
    have hpcB : slotPreferredCount
        [⟨1, 0, 540, .preferred⟩, ⟨2, 0, 540, .unavailable⟩] 0 540 = 1 := by
      decide
    have hwcB : slotWorksCount
        [⟨1, 0, 540, .preferred⟩, ⟨2, 0, 540, .unavailable⟩] 0 540 = 0 := by
      decide
    have hpcA : slotPreferredCount
        [⟨1, 0, 540, .preferred⟩, ⟨2, 0, 540, .preferred⟩] 0 540 = 2 := by
      decide
    have hwcA : slotWorksCount
        [⟨1, 0, 540, .preferred⟩, ⟨2, 0, 540, .preferred⟩] 0 540 = 0 := by
      decide
    have hnp : calculateNashProduct [2] = 2 := by
      norm_num [calculateNashProduct, List.filter, List.foldl]
    rw [huB, huA, hpcB, hwcB, hpcA, hwcA, hnp]
    rw [if_pos (by norm_num : 0 < 2 + 0), if_pos (by norm_num : 0 < 1 + 0)]
    have hr2 : ((2 : ℚ) : ℝ) ^ ((1 : ℝ) / ((1 + 0 : ℕ) : ℝ)) = 2 := by
      have h1 : ((2 : ℚ) : ℝ) = (2 : ℝ) := by norm_num
      have h2 : (1 : ℝ) / ((1 + 0 : ℕ) : ℝ) = 1 := by norm_num
      rw [h1, h2, Real.rpow_one]
    have hrs : ((2 : ℚ) : ℝ) ^ ((1 : ℝ) / ((2 + 0 : ℕ) : ℝ)) =
        Real.sqrt 2 := by
      have h1 : ((2 : ℚ) : ℝ) = (2 : ℝ) := by norm_num
      have h2 : ((2 + 0 : ℕ) : ℝ) = 2 := by norm_num
      rw [h1, h2, ← Real.sqrt_eq_rpow]
    rw [hr2, hrs]
    have : Real.sqrt 2 < 2 := by
      have h4 : Real.sqrt 2 < Real.sqrt 4 :=
        Real.sqrt_lt_sqrt (by norm_num) (by norm_num)
      have h42 : Real.sqrt 4 = 2 := by
        rw [show (4 : ℝ) = 2 ^ 2 by norm_num,
          Real.sqrt_sq (by norm_num : (0 : ℝ) ≤ 2)]
      linarith
    linarith

/-- C2 witness: the amended monotonicity theorem applied to a concrete
two-participant input where participant 2's row at the single slot flips
from unavailable to preferred. -/
theorem claim_C2_witness :
    ((2 : Nat) ∈ ([⟨1⟩, ⟨2⟩] : List Participant).map Participant.id) ∧
    (([⟨1⟩, ⟨2⟩] : List Participant).map Participant.id).Nodup ∧
    (∀ a ∈ ([⟨1, 0, 540, .works⟩] : List Availability),
      ¬(a.participant_id = 2 ∧ a.date = 0 ∧ a.time = 540)) ∧
    (slotScored ⟨0, 0, 540, 570⟩ [⟨1⟩, ⟨2⟩]
        ([⟨1, 0, 540, .works⟩] ++ ⟨2, 0, 540, .unavailable⟩ :: [])
        0 540).socialWelfare ≤
      (slotScored ⟨0, 0, 540, 570⟩ [⟨1⟩, ⟨2⟩]
        ([⟨1, 0, 540, .works⟩] ++ ⟨2, 0, 540, .preferred⟩ :: [])
        0 540).socialWelfare ∧
    (slotScored ⟨0, 0, 540, 570⟩ [⟨1⟩, ⟨2⟩]
        ([⟨1, 0, 540, .works⟩] ++ ⟨2, 0, 540, .unavailable⟩ :: [])
        0 540).nashProduct ≤
      (slotScored ⟨0, 0, 540, 570⟩ [⟨1⟩, ⟨2⟩]
        ([⟨1, 0, 540, .works⟩] ++ ⟨2, 0, 540, .preferred⟩ :: [])
        0 540).nashProduct :=
  ⟨by decide, by decide, by decide,
    (claim_C2_amended_monotonicity ⟨0, 0, 540, 570⟩ [⟨1⟩, ⟨2⟩]
      [⟨1, 0, 540, .works⟩] [] 2 0 540 (by decide) (by decide) (by decide)).1,
    (claim_C2_amended_monotonicity ⟨0, 0, 540, 570⟩ [⟨1⟩, ⟨2⟩]
      [⟨1, 0, 540, .works⟩] [] 2 0 540 (by decide) (by decide)
      (by decide)).2⟩

/-- C3, counterexample: with 2 participants and a single works row at a slot,
the code's heatmap band (ratio 1/2, band 3) differs from the claimed band
(weighted ratio 1/4, band 2), so the spec's heatmap formula is not the one in
the code. -/
theorem claim_C3_counterexample :
    ¬ (bandOfColor (getHeatmapColor 2
        (getSlotAvailability [⟨1, 0, 540, .works⟩] 0 540)) =
      heatmapBandClaimed 2 (slotWorksCount [⟨1, 0, 540, .works⟩] 0 540)
        (slotPreferredCount [⟨1, 0, 540, .works⟩] 0 540)) := by
  have h1 : getSlotAvailability [⟨1, 0, 540, .works⟩] 0 540 = 1 := rfl
  have h2 : slotWorksCount [⟨1, 0, 540, .works⟩] 0 540 = 1 := rfl
  have h3 : slotPreferredCount [⟨1, 0, 540, .works⟩] 0 540 = 0 := rfl
  rw [h1, h2, h3]
  norm_num [getHeatmapColor, bandOfColor, heatmapBandClaimed]
  decide

/-- C3 (amended): for every slot the heatmap intensity band is computed from
the unweighted count of works-or-preferred rows at that slot, as
ratio = availableCount / totalParticipants, bucketed into 6 bands with strict
upper bounds: zero (no participants or no available rows), <0.2, <0.4, <0.6,
<0.8, and ≥0.8. -/
theorem claim_C3_heatmap_band (participants : List Participant)
    (availability : List Availability) (date : Int) (time : Nat) :
    bandOfColor (getHeatmapColor participants.length
      (getSlotAvailability availability date time)) =
      heatmapBandActual participants.length
        (slotWorksCount availability date time)
        (slotPreferredCount availability date time) := by
  rw [bandOfColor_getHeatmapColor, getSlotAvailability_eq]
  simp only [heatmapBandActual, Nat.cast_add]

/-- C4: on the concrete spec scenario (09:00–10:00, one date, participant 1
preferred and participant 2 works at 09:00) the ranker emits exactly one
suggestion, for the 09:00 slot only (09:30 is not emitted), with
socialWelfare 3, availableCount 2, preferredCount 1, worksCount 1,
egalitarian 1 and normalized nashProduct √2. -/
theorem claim_C4_concrete_scenario :
    ∃ s : ScoredSuggestion,
      calculateSuggestions ev4 ps4 av4 = [s] ∧
      (calculateSuggestions ev4 ps4 av4).map (fun t => (t.date, t.time)) =
        [((0 : Int), (540 : Nat))] ∧
      s.socialWelfare = 3 ∧ s.availableCount = 2 ∧ s.preferredCount = 1 ∧
      s.worksCount = 1 ∧ s.egalitarian = 1 ∧ s.nashProduct = Real.sqrt 2 := by
  refine ⟨addCompositeScore
      (buildSuggestion ps4 av4 [((0, 540), [2, 1])] 0 540 [2, 1]),
    calculateSuggestions_ev4, ?_, ?_, ?_, ?_, ?_, ?_, ?_⟩
  · rw [calculateSuggestions_ev4]
    simp [addCompositeScore_toSuggestion, buildSuggestion_date,
      buildSuggestion_time]
  · show (addCompositeScore _).toSuggestion.socialWelfare = 3
    rw [addCompositeScore_toSuggestion, buildSuggestion_socialWelfare]
    norm_num [calculateSocialWelfare, List.foldl]
  · show (addCompositeScore _).toSuggestion.availableCount = 2
    rw [addCompositeScore_toSuggestion, buildSuggestion_availableCount]
    decide
  · show (addCompositeScore _).toSuggestion.preferredCount = 1
    rw [addCompositeScore_toSuggestion, buildSuggestion_preferredCount]
    decide
  · show (addCompositeScore _).toSuggestion.worksCount = 1
    rw [addCompositeScore_toSuggestion, buildSuggestion_worksCount]
    decide
  · show (addCompositeScore _).toSuggestion.egalitarian = 1
    rw [addCompositeScore_toSuggestion, buildSuggestion_egalitarian]
    norm_num [calculateEgalitarian, List.filter, List.foldl]
  · show (addCompositeScore _).toSuggestion.nashProduct = Real.sqrt 2
    rw [addCompositeScore_toSuggestion, buildSuggestion_nashProduct]
    have hpc : slotPreferredCount av4 0 540 = 1 := by decide
    have hwc : slotWorksCount av4 0 540 = 1 := by decide
    have hnp : calculateNashProduct [2, 1] = 2 := by
      norm_num [calculateNashProduct, List.filter, List.foldl]
    rw [hpc, hwc, hnp, if_pos (by norm_num)]
    rw [Real.sqrt_eq_rpow]
    norm_num

/-- C5: with an empty participant list the ranker short-circuits to the empty
suggestion list (no per-slot computation, no division by zero). -/
theorem claim_C5_empty_participants (event : Event)
    (availability : List Availability) :
    calculateSuggestions event [] availability = [] := by
  simp [calculateSuggestions]

/-- C6: Pareto dominance on equal-length utility vectors is irreflexive (no
vector dominates itself) and antisymmetric (if A dominates B then B does not
dominate A). -/
theorem claim_C6_pareto_irrefl_antisymm :
    (∀ v : List ℚ, isParetoDominated v v = false) ∧
    (∀ A B : List ℚ, A.length = B.length → isParetoDominated A B = true →
      isParetoDominated B A = false) := by
  constructor
  · intro v
    exact paretoLoop_irrefl v false
  · intro A B _ hAB
    rw [isParetoDominated, paretoLoop_eq] at hAB ⊢
    simp only [Bool.and_eq_true, Bool.false_or, List.all_eq_true,
      List.any_eq_true, decide_eq_true_eq] at hAB
    obtain ⟨_, p, hp, hlt⟩ := hAB
    have hmem : (p.2, p.1) ∈ B.zip A := by
      rw [← List.zip_swap]
      exact List.mem_map_of_mem Prod.swap hp
    have hall : ((B.zip A).all fun q => decide (q.2 ≤ q.1)) = false := by
      rw [List.all_eq_false]
      exact ⟨(p.2, p.1), hmem, by simpa using not_le_of_lt hlt⟩
    rw [hall, Bool.false_and]

/-- C6 witness: concrete dominance pair of equal length. -/
theorem claim_C6_witness :
    isParetoDominated [(1 : ℚ), 1] [(1 : ℚ), 1] = false ∧
    (([(2 : ℚ), 1].length = [(1 : ℚ), 1].length) ∧
      isParetoDominated [(2 : ℚ), 1] [(1 : ℚ), 1] = true ∧
      isParetoDominated [(1 : ℚ), 1] [(2 : ℚ), 1] = false) :=
  ⟨claim_C6_pareto_irrefl_antisymm.1 [(1 : ℚ), 1],
    by decide, by decide,
    claim_C6_pareto_irrefl_antisymm.2 [(2 : ℚ), 1] [(1 : ℚ), 1]
      (by decide) (by decide)⟩

/-- C7: the status cycle maps undefined and unavailable to works, works to
preferred, preferred to unavailable; it has no fixed point and has period 3. -/
theorem claim_C7_cycleStatus :
    cycleStatus none = Status.works ∧
    cycleStatus (some Status.unavailable) = Status.works ∧
    cycleStatus (some Status.works) = Status.preferred ∧
    cycleStatus (some Status.preferred) = Status.unavailable ∧
    (∀ s : Status, cycleStatus (some s) ≠ s) ∧
    (∀ s : Status,
      cycleStatus (some (cycleStatus (some (cycleStatus (some s))))) = s) := by
  refine ⟨rfl, rfl, rfl, rfl, fun s => ?_, fun s => ?_⟩ <;> cases s <;> decide

/-- C8, counterexample: a 45-minute range (09:00 to 09:45) yields 2 slots,
not ⌊45/30⌋ = 1, so the claimed floor length formula is wrong; the walk
takes the ceiling. -/
theorem claim_C8_counterexample :
    ¬ ((generateTimeSlots ⟨0, 0, 540, 585⟩).length = (585 - 540) / 30) := by
  rw [generateTimeSlots, timeSlotsFrom_length]
  decide

/-- C8 (amended): for endTime ≤ startTime the slot list is empty (the walk
terminates); for startTime < endTime it steps by 30 minutes from startTime,
stops strictly before endTime, and has length ⌈(endTime − startTime)/30⌉. -/
theorem claim_C8_generateTimeSlots (event : Event) :
    (event.end_time ≤ event.start_time → generateTimeSlots event = []) ∧
    (event.start_time < event.end_time →
      generateTimeSlots event =
        (List.range ((event.end_time - event.start_time + 29) / 30)).map
          (fun i => event.start_time + 30 * i) ∧
      (generateTimeSlots event).length =
        (event.end_time - event.start_time + 29) / 30) := by
  refine ⟨fun h => ?_, fun _ => ⟨timeSlotsFrom_eq_range _ _, ?_⟩⟩
  · rw [generateTimeSlots, timeSlotsFrom_eq_range]
    have h0 : (event.end_time - event.start_time + 29) / 30 = 0 := by omega
    rw [h0]
    rfl
  · exact timeSlotsFrom_length _ _

/-- C8 witness: a reversed-range event and a 45-minute event evaluated
through the amended theorem. -/
theorem claim_C8_witness :
    generateTimeSlots ⟨0, 0, 585, 540⟩ = [] ∧
    (540 < 585 ∧ (generateTimeSlots ⟨0, 0, 540, 585⟩).length = 2) :=
  ⟨(claim_C8_generateTimeSlots ⟨0, 0, 585, 540⟩).1 (by decide),
    by decide,
    by
      have h := (claim_C8_generateTimeSlots ⟨0, 0, 540, 585⟩).2 (by decide)
      simpa using h.2⟩

/-- C9: for startDate ≤ endDate, `generateDates` returns exactly
(endDate − startDate) + 1 dates. -/
theorem claim_C9_generateDates_length (event : Event)
    (h : event.start_date ≤ event.end_date) :
    (generateDates event).length =
      (event.end_date - event.start_date).toNat + 1 :=
  datesFrom_length _ _ h

/-- C9 witness: a one-day event has exactly one date. -/
theorem claim_C9_witness :
    (5 : Int) ≤ 5 ∧ (generateDates ⟨5, 5, 540, 600⟩).length = 1 :=
  ⟨by decide,
    by simpa using claim_C9_generateDates_length ⟨5, 5, 540, 600⟩ (by decide)⟩

/-- C10: with two rows for the same (participant, date, time) key — works
first, then preferred — the utility vector uses the first matching row
(utility 1, socialWelfare 1), while preferredCount, worksCount and
availableCount count every matching row (1, 1 and 2), so availableCount
exceeds the number of participants with positive utility. -/
theorem claim_C10_duplicate_rows :
    ∃ s : ScoredSuggestion,
      calculateSuggestions ev10 ps10 av10 = [s] ∧
      calculateUtilities ps10 av10 0 540 = [1] ∧
      s.socialWelfare = 1 ∧ s.preferredCount = 1 ∧ s.worksCount = 1 ∧
      s.availableCount = 2 ∧
      ((calculateUtilities ps10 av10 0 540).filter fun u => 0 < u).length <
        s.availableCount := by
  refine ⟨addCompositeScore
      (buildSuggestion ps10 av10 [((0, 540), [1])] 0 540 [1]),
    calculateSuggestions_ev10, by decide, ?_, ?_, ?_, ?_, ?_⟩
  · show (addCompositeScore _).toSuggestion.socialWelfare = 1
    rw [addCompositeScore_toSuggestion, buildSuggestion_socialWelfare]
    norm_num [calculateSocialWelfare, List.foldl]
  · show (addCompositeScore _).toSuggestion.preferredCount = 1
    rw [addCompositeScore_toSuggestion, buildSuggestion_preferredCount]
    decide
  · show (addCompositeScore _).toSuggestion.worksCount = 1
    rw [addCompositeScore_toSuggestion, buildSuggestion_worksCount]
    decide
  · show (addCompositeScore _).toSuggestion.availableCount = 2
    rw [addCompositeScore_toSuggestion, buildSuggestion_availableCount]
    decide
  · show _ < (addCompositeScore _).toSuggestion.availableCount
    rw [addCompositeScore_toSuggestion, buildSuggestion_availableCount]
    decide

end When3Meet
